import Mathlib

/-!
# StepperMotor: a shallow embedding of `StepperMotor.cpp`

The Arduino library drives a step/direction motor driver through three
digital output pins and tracks the shaft position relative to a home
reference.

Modelling conventions.

* C++ `int` / `long` values are mathematical integers (`Int`).  Signed
  overflow is undefined behaviour in C++, so every statement below is about
  executions in which no intermediate value leaves the range of `int`.
* `/` on C++ integers truncates toward zero: `Int.tdiv`.  Division by zero is
  undefined behaviour; the embedding makes it an explicit failure (`none`).
* The collaborators `pinMode`, `digitalWrite`, `delay` and `Serial.println`
  are recorded, in program order, in a list of `Event`s returned next to the
  new object state.
-/

/-- Logic level written to a digital pin. -/
inductive Level where
  | LOW
  | HIGH
  deriving DecidableEq

/-- The three diagnostics the library prints with `Serial.println`:
`rpm_too_high` is "Error: Desired rpm is higher than max_rpm",
`home_not_set` is "Cannot go to position if home position has not been set.",
`target_out_of_range` is
"Value given for steps_relative_to_home exceeds self.steps_per_revolution.". -/
inductive Message where
  | rpm_too_high
  | home_not_set
  | target_out_of_range
  deriving DecidableEq

/-- One call to an Arduino collaborator. `pinMode pin` is
`pinMode(pin, OUTPUT)`; `delay ms` carries the `long` handed to `delay`. -/
inductive Event where
  | pinMode (pin : Int)
  | digitalWrite (pin : Int) (level : Level)
  | delay (ms : Int)
  | println (msg : Message)
  deriving DecidableEq

/-- Whether the event is a write to a pin. -/
def Event.is_pin_write : Event → Bool
  | .digitalWrite _ _ => true
  | _ => false

/-- Whether the event is a blocking wait. -/
def Event.is_wait : Event → Bool
  | .delay _ => true
  | _ => false

/-- A trace is quiet when it holds no pin write and no wait: nothing reached
the motor driver. -/
def quiet (tr : List Event) : Prop :=
  ∀ e ∈ tr, e.is_pin_write = false ∧ e.is_wait = false

/-- Number of rising edges requested on `pulse_pin`: the writes of `HIGH` to
that pin. -/
def pulse_count (pulse_pin : Int) (tr : List Event) : Nat :=
  (tr.filter (fun e => decide (e = Event.digitalWrite pulse_pin Level.HIGH))).length

/-- Number of blocking waits in a trace. -/
def wait_count (tr : List Event) : Nat :=
  (tr.filter Event.is_wait).length

/-- The data members of `class StepperMotor` (`StepperMotor.h`). -/
structure StepperMotor where
  m_enable_pin : Int
  m_direction_pin : Int
  m_pulse_pin : Int
  m_max_rpm : Int
  m_hold_position : Bool
  m_steps_per_revolution : Int
  m_steps_from_home : Int
  m_is_home_position_set : Bool
  deriving DecidableEq

namespace StepperMotor

/-- `StepperMotor::set_pin_modes`: the three pins become outputs, then the
enable pin is written once according to `m_hold_position`. -/
def set_pin_modes (m : StepperMotor) : List Event :=
  [Event.pinMode m.m_enable_pin, Event.pinMode m.m_direction_pin, Event.pinMode m.m_pulse_pin] ++
    (if m.m_hold_position then [Event.digitalWrite m.m_enable_pin Level.LOW]
     else [Event.digitalWrite m.m_enable_pin Level.HIGH])

/-- The constructor `StepperMotor::StepperMotor`. It does not initialise
`m_steps_from_home`; `uninitialised` stands for whatever the member holds. -/
def create (enable_pin direction_pin pulse_pin steps_per_revolution max_rpm : Int)
    (hold_position : Bool) (uninitialised : Int) : StepperMotor × List Event :=
  let m : StepperMotor :=
    { m_enable_pin := enable_pin
      m_direction_pin := direction_pin
      m_pulse_pin := pulse_pin
      m_steps_per_revolution := steps_per_revolution
      m_max_rpm := max_rpm
      m_hold_position := hold_position
      m_is_home_position_set := false
      m_steps_from_home := uninitialised }
  (m, m.set_pin_modes)

/-- `StepperMotor::update_position`. -/
def update_position (m : StepperMotor) (turn_clockwise : Bool) : StepperMotor :=
  if !m.m_is_home_position_set then m
  else if turn_clockwise then
    let m1 := { m with m_steps_from_home := m.m_steps_from_home + 1 }
    if m1.m_steps_from_home = m1.m_steps_per_revolution then
      { m1 with m_steps_from_home := 0 }
    else m1
  else
    let m1 :=
      if m.m_steps_from_home = 0 then
        { m with m_steps_from_home := m.m_steps_per_revolution }
      else m
    { m1 with m_steps_from_home := m1.m_steps_from_home - 1 }

/-- `StepperMotor::calculate_delay_from_rpm`: two truncating divisions;
`none` when a divisor is zero. -/
def calculate_delay_from_rpm (m : StepperMotor) (rpm : Int) : Option Int :=
  if rpm = 0 then none
  else
    let time_per_revolution := Int.tdiv 60000 rpm
    if m.m_steps_per_revolution * 2 = 0 then none
    else
      let delay_in_milliseconds := Int.tdiv time_per_revolution (m.m_steps_per_revolution * 2)
      some delay_in_milliseconds

/-- One pass through the body of the `for` loop of `step`. -/
def pulse (pulse_pin delay_in_milliseconds : Int) : List Event :=
  [Event.digitalWrite pulse_pin Level.HIGH, Event.delay delay_in_milliseconds,
   Event.digitalWrite pulse_pin Level.LOW, Event.delay delay_in_milliseconds]

/-- The loop `for (int count{0}; count < steps; ++count)` of `step`, by the
number of iterations left; the body does not read `count`. -/
def pulse_loop (pulse_pin delay_in_milliseconds : Int) : Nat → List Event
  | 0 => []
  | remaining + 1 =>
    pulse pulse_pin delay_in_milliseconds ++ pulse_loop pulse_pin delay_in_milliseconds remaining

/-- `StepperMotor::step`. The loop runs `steps` times when `steps` is
positive and not at all otherwise, that is `steps.toNat` times. -/
def step (m : StepperMotor) (steps : Int) (turn_clockwise : Bool) (rpm : Int) :
    Option (StepperMotor × List Event) :=
  if rpm > m.m_max_rpm then
    some (m, [Event.println Message.rpm_too_high])
  else
    let direction :=
      if turn_clockwise then [Event.digitalWrite m.m_direction_pin Level.HIGH]
      else [Event.digitalWrite m.m_direction_pin Level.LOW]
    let enable := [Event.digitalWrite m.m_enable_pin Level.LOW]
    match m.calculate_delay_from_rpm rpm with
    | none => none
    | some delay_in_milliseconds =>
      let pulses := pulse_loop m.m_pulse_pin delay_in_milliseconds steps.toNat
      let m1 := m.update_position turn_clockwise
      let disable :=
        if !m.m_hold_position then [Event.digitalWrite m.m_enable_pin Level.HIGH] else []
      some (m1, direction ++ enable ++ pulses ++ disable)

/-- `StepperMotor::do_one_rotation`. -/
def do_one_rotation (m : StepperMotor) (turn_clockwise : Bool) (rpm : Int) :
    Option (StepperMotor × List Event) :=
  m.step m.m_steps_per_revolution turn_clockwise rpm

/-- `StepperMotor::rotate`. -/
def rotate (m : StepperMotor) (rotations : Int) (turn_clockwise : Bool) (rpm : Int) :
    Option (StepperMotor × List Event) :=
  m.step (rotations * m.m_steps_per_revolution) turn_clockwise rpm

/-- `StepperMotor::set_current_position_as_home`. -/
def set_current_position_as_home (m : StepperMotor) : StepperMotor :=
  { m with m_steps_from_home := 0, m_is_home_position_set := true }

/-- `StepperMotor::go_to_position`. -/
def go_to_position (m : StepperMotor) (turn_clockwise : Bool) (rpm : Int)
    (steps_relative_to_home : Int) : Option (StepperMotor × List Event) :=
  if !m.m_is_home_position_set then
    some (m, [Event.println Message.home_not_set])
  else if steps_relative_to_home = m.m_steps_from_home then
    some (m, [])
  else if steps_relative_to_home < 0 ∨ steps_relative_to_home > m.m_steps_per_revolution then
    some (m, [Event.println Message.target_out_of_range])
  else if turn_clockwise then
    if steps_relative_to_home > m.m_steps_from_home then
      m.step (steps_relative_to_home - m.m_steps_from_home) turn_clockwise rpm
    else
      m.step (m.m_steps_per_revolution - m.m_steps_from_home + steps_relative_to_home)
        turn_clockwise rpm
  else
    if steps_relative_to_home > m.m_steps_from_home then
      m.step (m.m_steps_from_home + (m.m_steps_per_revolution - steps_relative_to_home))
        turn_clockwise rpm
    else
      m.step (m.m_steps_from_home - steps_relative_to_home) turn_clockwise rpm

/-- The first argument `go_to_position` hands to `step` once its three guards
have passed (source lines 199-219, the four call sites). -/
def go_to_position_steps (m : StepperMotor) (turn_clockwise : Bool)
    (steps_relative_to_home : Int) : Int :=
  if turn_clockwise then
    if steps_relative_to_home > m.m_steps_from_home then
      steps_relative_to_home - m.m_steps_from_home
    else
      m.m_steps_per_revolution - m.m_steps_from_home + steps_relative_to_home
  else
    if steps_relative_to_home > m.m_steps_from_home then
      m.m_steps_from_home + (m.m_steps_per_revolution - steps_relative_to_home)
    else
      m.m_steps_from_home - steps_relative_to_home

/-- The directional distance as the specification words it, by its four
cases on the preference and on `target_offset > steps_from_home`. -/
def spec_distance (steps_per_revolution steps_from_home target_offset : Int) :
    Bool → Int
  | true =>
    if target_offset > steps_from_home then target_offset - steps_from_home
    else steps_per_revolution - steps_from_home + target_offset
  | false =>
    if target_offset > steps_from_home then
      steps_from_home + (steps_per_revolution - target_offset)
    else steps_from_home - target_offset

/-- A homed motor with `steps_per_revolution` steps per revolution standing at
`offset`: at most 300 rpm, pins 2 (enable), 3 (direction), 4 (pulse), no
holding torque. -/
def homed (steps_per_revolution offset : Int) : StepperMotor :=
  { m_enable_pin := 2
    m_direction_pin := 3
    m_pulse_pin := 4
    m_max_rpm := 300
    m_hold_position := false
    m_steps_per_revolution := steps_per_revolution
    m_steps_from_home := offset
    m_is_home_position_set := true }

/-- One call of a public member function by the host program, with its
arguments. -/
inductive Call where
  | update_position (turn_clockwise : Bool)
  | step (steps : Int) (turn_clockwise : Bool) (rpm : Int)
  | do_one_rotation (turn_clockwise : Bool) (rpm : Int)
  | rotate (rotations : Int) (turn_clockwise : Bool) (rpm : Int)
  | set_current_position_as_home
  | go_to_position (turn_clockwise : Bool) (rpm : Int) (steps_relative_to_home : Int)
  deriving DecidableEq

/-- Whether the `rpm` argument of the call, when it has one, is at least 1. -/
def Call.rpm_positive : Call → Bool
  | .update_position _ => true
  | .step _ _ rpm => decide (1 ≤ rpm)
  | .do_one_rotation _ rpm => decide (1 ≤ rpm)
  | .rotate _ _ rpm => decide (1 ≤ rpm)
  | .set_current_position_as_home => true
  | .go_to_position _ rpm _ => decide (1 ≤ rpm)

/-- Effect of one call on the object, with the trace it produces.
`update_position` and `set_current_position_as_home` contain no call to a
collaborator, so their trace is empty. -/
def call (m : StepperMotor) : Call → Option (StepperMotor × List Event)
  | .update_position turn_clockwise => some (m.update_position turn_clockwise, [])
  | .step steps turn_clockwise rpm => m.step steps turn_clockwise rpm
  | .do_one_rotation turn_clockwise rpm => m.do_one_rotation turn_clockwise rpm
  | .rotate rotations turn_clockwise rpm => m.rotate rotations turn_clockwise rpm
  | .set_current_position_as_home => some (m.set_current_position_as_home, [])
  | .go_to_position turn_clockwise rpm steps_relative_to_home =>
    m.go_to_position turn_clockwise rpm steps_relative_to_home

/-- A finite sequence of calls issued one after the other; the traces are
concatenated and a failing call makes the whole run fail. -/
def run (m : StepperMotor) : List Call → Option (StepperMotor × List Event)
  | [] => some (m, [])
  | c :: cs =>
    match m.call c with
    | none => none
    | some (m1, tr1) =>
      match run m1 cs with
      | none => none
      | some (m2, tr2) => some (m2, tr1 ++ tr2)

/-- The range invariant of the data model together with what it rests on:
home is set and `0 ≤ steps_from_home < steps_per_revolution`. -/
def tracking (m : StepperMotor) : Prop :=
  m.m_is_home_position_set = true ∧ 0 ≤ m.m_steps_from_home ∧
    m.m_steps_from_home < m.m_steps_per_revolution

/-- The configuration part of the object: pins, steps per revolution, maximum
rpm and the hold flag. -/
def configuration (m : StepperMotor) : Int × Int × Int × Int × Int × Bool :=
  (m.m_enable_pin, m.m_direction_pin, m.m_pulse_pin, m.m_steps_per_revolution,
    m.m_max_rpm, m.m_hold_position)

end StepperMotor

/-! ## Helper lemmas -/

namespace StepperMotor

theorem calculate_delay_from_rpm_eq (m : StepperMotor) (rpm : Int) (hrpm : rpm ≠ 0)
    (hspr : m.m_steps_per_revolution ≠ 0) :
    m.calculate_delay_from_rpm rpm =
      some (Int.tdiv (Int.tdiv 60000 rpm) (m.m_steps_per_revolution * 2)) := by
  have h2 : m.m_steps_per_revolution * 2 ≠ 0 := by omega
  simp [calculate_delay_from_rpm, hrpm, h2]

theorem pulse_loop_eq_replicate (pulse_pin d : Int) (n : Nat) :
    pulse_loop pulse_pin d n = (List.replicate n (pulse pulse_pin d)).flatten := by
  induction n with
  | zero => rfl
  | succ k ih => simp [pulse_loop, List.replicate_succ, ih]

theorem wait_count_pulse_loop (pulse_pin d : Int) (n : Nat) :
    wait_count (pulse_loop pulse_pin d n) = 2 * n := by
  induction n with
  | zero => rfl
  | succ k ih =>
    simp only [wait_count] at ih
    simp [pulse_loop, pulse, wait_count, List.filter_cons, Event.is_wait, ih]
    omega

theorem emod_of_shift (spr t x k : Int) (h0 : 0 ≤ t) (h1 : t < spr)
    (hx : x = t + k * spr) : x % spr = t := by
  subst hx
  rw [Int.add_mul_emod_self]
  exact Int.emod_eq_of_lt h0 h1

theorem step_eq_of_valid (m : StepperMotor) (steps : Int) (turn_clockwise : Bool) (rpm : Int)
    (hmax : rpm ≤ m.m_max_rpm) (hrpm : rpm ≠ 0) (hspr : m.m_steps_per_revolution ≠ 0) :
    m.step steps turn_clockwise rpm =
      some (m.update_position turn_clockwise,
        [Event.digitalWrite m.m_direction_pin (if turn_clockwise then Level.HIGH else Level.LOW),
         Event.digitalWrite m.m_enable_pin Level.LOW] ++
        pulse_loop m.m_pulse_pin
          (Int.tdiv (Int.tdiv 60000 rpm) (m.m_steps_per_revolution * 2)) steps.toNat ++
        (if m.m_hold_position then [] else [Event.digitalWrite m.m_enable_pin Level.HIGH])) := by
  have hg : ¬ rpm > m.m_max_rpm := by omega
  simp only [step, hg, if_false, calculate_delay_from_rpm_eq m rpm hrpm hspr]
  cases turn_clockwise <;> cases m.m_hold_position <;> simp

theorem go_to_position_eq_step (m : StepperMotor) (turn_clockwise : Bool) (rpm target : Int)
    (hhome : m.m_is_home_position_set = true) (hne : target ≠ m.m_steps_from_home)
    (h0 : 0 ≤ target) (h1 : target ≤ m.m_steps_per_revolution) :
    m.go_to_position turn_clockwise rpm target =
      m.step (m.go_to_position_steps turn_clockwise target) turn_clockwise rpm := by
  have hr : ¬ (target < 0 ∨ target > m.m_steps_per_revolution) := by omega
  cases turn_clockwise <;>
    by_cases hgt : target > m.m_steps_from_home <;>
    simp [go_to_position, go_to_position_steps, hhome, hne, hr, hgt]

end StepperMotor

/-! ## Step emission and position bookkeeping -/

namespace StepperMotor

/-- C1: evaluation of `step` where the claim fails. From offset 0 of a 200-step
revolution, `step(5, true, 60)` issues 5 pulses yet stores offset 1, and
`step(5, false, 60)` stores 199; one `update_position` per pulse issued would
store `(0 + 5) % 200 = 5` and `(0 - 5) % 200 = 195`. -/
theorem step_updates_position_once_per_call :
    ((homed 200 0).step 5 true 60).map
        (fun r => (r.1.m_steps_from_home, pulse_count 4 r.2)) = some (1, 5) ∧
    ((homed 200 0).step 5 false 60).map
        (fun r => (r.1.m_steps_from_home, pulse_count 4 r.2)) = some (199, 5) ∧
    (Nat.iterate (fun s => s.update_position true) 5 (homed 200 0)).m_steps_from_home
        = (0 + 5) % 200 ∧
    (Nat.iterate (fun s => s.update_position false) 5 (homed 200 0)).m_steps_from_home
        = (0 - 5) % 200 ∧
    ((0 + 5) % 200 : Int) ≠ 1 ∧ ((0 - 5) % 200 : Int) ≠ 199 := by
  decide

/-- C2: evaluation of `go_to_position` where the claim fails. From offset 0 of
a 200-step revolution, `go_to_position(true, 60, 5)` issues 5 pulses and stores
offset 1, not 5; the same call again issues 4 more pulses and stores 2. -/
theorem go_to_position_twice_moves_again :
    ((homed 200 0).go_to_position true 60 5).map
        (fun r => (r.1.m_steps_from_home, pulse_count 4 r.2)) = some (1, 5) ∧
    (((homed 200 0).go_to_position true 60 5).bind
        (fun r => r.1.go_to_position true 60 5)).map
        (fun r => (r.1.m_steps_from_home, pulse_count 4 r.2)) = some (2, 4) := by
  decide

/-- C3: with home set, offset `p` in `[0, spr)` (so `spr ≥ 1`) and a target
`t` in `[0, spr)` other than `p`, `go_to_position` calls `step` with the preferred direction and
a count `d` with `1 ≤ d ≤ spr - 1` that is the directional distance:
`(p + d) % spr = t` clockwise, `(p - d) % spr = t` counter-clockwise. -/
theorem go_to_position_steps_is_directional_distance (m : StepperMotor)
    (turn_clockwise : Bool) (rpm target : Int)
    (hhome : m.m_is_home_position_set = true)
    (hp0 : 0 ≤ m.m_steps_from_home) (hp1 : m.m_steps_from_home < m.m_steps_per_revolution)
    (ht0 : 0 ≤ target) (ht1 : target < m.m_steps_per_revolution)
    (hne : target ≠ m.m_steps_from_home) :
    m.go_to_position turn_clockwise rpm target =
        m.step (m.go_to_position_steps turn_clockwise target) turn_clockwise rpm ∧
    1 ≤ m.go_to_position_steps turn_clockwise target ∧
    m.go_to_position_steps turn_clockwise target ≤ m.m_steps_per_revolution - 1 ∧
    (turn_clockwise = true →
      (m.m_steps_from_home + m.go_to_position_steps turn_clockwise target)
        % m.m_steps_per_revolution = target) ∧
    (turn_clockwise = false →
      (m.m_steps_from_home - m.go_to_position_steps turn_clockwise target)
        % m.m_steps_per_revolution = target) := by
  refine ⟨go_to_position_eq_step m turn_clockwise rpm target hhome hne ht0 (by omega), ?_⟩
  cases turn_clockwise <;>
    by_cases hgt : target > m.m_steps_from_home <;>
    simp only [go_to_position_steps, hgt, if_true, if_false, Bool.false_eq_true] <;>
    refine ⟨by omega, by omega, fun _ => ?_, fun _ => ?_⟩
  · contradiction
  · exact emod_of_shift _ target _ (-1) ht0 ht1 (by ring)
  · contradiction
  · exact emod_of_shift _ target _ 0 ht0 ht1 (by ring)
  · exact emod_of_shift _ target _ 0 ht0 ht1 (by ring)
  · contradiction
  · exact emod_of_shift _ target _ 1 ht0 ht1 (by ring)
  · contradiction

/-- C3 at `spr = 200`, `p = 10`, `t = 5`, clockwise: the count handed to `step`
is 195. -/
theorem go_to_position_steps_is_directional_distance_witness :
    (homed 200 10).go_to_position_steps true 5 = 195 ∧
    ((homed 200 10).go_to_position true 60 5 =
        (homed 200 10).step ((homed 200 10).go_to_position_steps true 5) true 60 ∧
      1 ≤ (homed 200 10).go_to_position_steps true 5 ∧
      (homed 200 10).go_to_position_steps true 5 ≤ (homed 200 10).m_steps_per_revolution - 1 ∧
      (true = true →
        ((homed 200 10).m_steps_from_home + (homed 200 10).go_to_position_steps true 5)
          % (homed 200 10).m_steps_per_revolution = 5) ∧
      (true = false →
        ((homed 200 10).m_steps_from_home - (homed 200 10).go_to_position_steps true 5)
          % (homed 200 10).m_steps_per_revolution = 5)) :=
  ⟨by decide,
   go_to_position_steps_is_directional_distance (homed 200 10) true 60 5
     (by decide) (by decide) (by decide) (by decide) (by decide) (by decide)⟩

/-- C4: with home set and a target `t` in `[0, spr]` other than the current
offset `p`, `go_to_position(pref, rpm, t)` is `step(distance, pref, rpm)` with
the same direction `pref` and the distance of the four cases of the
specification. -/
theorem go_to_position_refines_spec_distance (m : StepperMotor) (pref : Bool)
    (rpm target : Int)
    (hhome : m.m_is_home_position_set = true)
    (ht0 : 0 ≤ target) (ht1 : target ≤ m.m_steps_per_revolution)
    (hne : target ≠ m.m_steps_from_home) :
    m.go_to_position pref rpm target =
      m.step (spec_distance m.m_steps_per_revolution m.m_steps_from_home target pref)
        pref rpm := by
  have hr : ¬ (target < 0 ∨ target > m.m_steps_per_revolution) := by omega
  cases pref <;>
    by_cases hgt : target > m.m_steps_from_home <;>
    simp [go_to_position, spec_distance, hhome, hne, hr, hgt]

/-- C4 on the four branches and on the inclusive upper bound `t = spr`. -/
theorem go_to_position_refines_spec_distance_witness :
    (homed 200 10).go_to_position true 60 5 =
        (homed 200 10).step (spec_distance 200 10 5 true) true 60 ∧
    spec_distance 200 10 5 true = 195 ∧ spec_distance 200 10 15 true = 5 ∧
    spec_distance 200 10 5 false = 5 ∧ spec_distance 200 10 15 false = 195 ∧
    spec_distance 200 10 200 true = 190 ∧ spec_distance 200 10 200 false = 10 :=
  ⟨go_to_position_refines_spec_distance (homed 200 10) true 60 5
     (by decide) (by decide) (by decide) (by decide),
   by decide, by decide, by decide, by decide, by decide, by decide⟩

/-! ## Refusals and no-ops -/

/-- C5 (SpeedExceeded): when `rpm > max_rpm`, `step` returns with the object
unchanged and a trace made of the diagnostic alone: no pin write, no wait, no
pulse. -/
theorem step_speed_exceeded (m : StepperMotor) (steps : Int) (turn_clockwise : Bool)
    (rpm : Int) (hrpm : rpm > m.m_max_rpm) :
    m.step steps turn_clockwise rpm = some (m, [Event.println Message.rpm_too_high]) ∧
    quiet [Event.println Message.rpm_too_high] ∧
    pulse_count m.m_pulse_pin [Event.println Message.rpm_too_high] = 0 ∧
    wait_count [Event.println Message.rpm_too_high] = 0 := by
  refine ⟨by simp [step, hrpm], ?_, by simp [pulse_count], by simp [wait_count, Event.is_wait]⟩
  intro e he
  simp only [List.mem_singleton] at he
  subst he
  exact ⟨rfl, rfl⟩

/-- C5 at `rpm = 301` against `max_rpm = 300`. -/
theorem step_speed_exceeded_witness :
    (homed 200 7).step 50 true 301 = some (homed 200 7, [Event.println Message.rpm_too_high]) ∧
    quiet [Event.println Message.rpm_too_high] ∧
    pulse_count (homed 200 7).m_pulse_pin [Event.println Message.rpm_too_high] = 0 ∧
    wait_count [Event.println Message.rpm_too_high] = 0 :=
  step_speed_exceeded (homed 200 7) 50 true 301 (by decide)

/-- C6 (HomeNotSet): while `home_is_set` is false, `go_to_position` returns
with the object unchanged and a trace made of the diagnostic alone: no pin
write, no wait, no pulse. -/
theorem go_to_position_home_not_set (m : StepperMotor) (turn_clockwise : Bool)
    (rpm target : Int) (hhome : m.m_is_home_position_set = false) :
    m.go_to_position turn_clockwise rpm target =
        some (m, [Event.println Message.home_not_set]) ∧
    quiet [Event.println Message.home_not_set] ∧
    pulse_count m.m_pulse_pin [Event.println Message.home_not_set] = 0 ∧
    wait_count [Event.println Message.home_not_set] = 0 := by
  refine ⟨by simp [go_to_position, hhome], ?_, by simp [pulse_count],
    by simp [wait_count, Event.is_wait]⟩
  intro e he
  simp only [List.mem_singleton] at he
  subst he
  exact ⟨rfl, rfl⟩

/-- C6 on a freshly constructed motor. -/
theorem go_to_position_home_not_set_witness :
    (create 2 3 4 200 300 false 0).1.go_to_position true 60 50 =
        some ((create 2 3 4 200 300 false 0).1, [Event.println Message.home_not_set]) ∧
    quiet [Event.println Message.home_not_set] ∧
    pulse_count (create 2 3 4 200 300 false 0).1.m_pulse_pin
        [Event.println Message.home_not_set] = 0 ∧
    wait_count [Event.println Message.home_not_set] = 0 :=
  go_to_position_home_not_set (create 2 3 4 200 300 false 0).1 true 60 50 (by decide)

/-- C7 (TargetOutOfRange): with home set and a target below 0 or above
`steps_per_revolution`, `go_to_position` returns with the object unchanged and
a trace without pin write, wait or pulse: it is empty when the target equals
the stored offset and the diagnostic alone otherwise. -/
theorem go_to_position_target_out_of_range (m : StepperMotor) (turn_clockwise : Bool)
    (rpm target : Int) (hhome : m.m_is_home_position_set = true)
    (hrange : target < 0 ∨ target > m.m_steps_per_revolution) :
    ∃ tr, m.go_to_position turn_clockwise rpm target = some (m, tr) ∧
      tr = (if target = m.m_steps_from_home then []
            else [Event.println Message.target_out_of_range]) ∧
      quiet tr ∧ pulse_count m.m_pulse_pin tr = 0 ∧ wait_count tr = 0 := by
  by_cases heq : target = m.m_steps_from_home
  · refine ⟨[], by simp [go_to_position, hhome, heq], by simp [heq], ?_, rfl, rfl⟩
    intro e he
    cases he
  · refine ⟨[Event.println Message.target_out_of_range],
      by simp [go_to_position, hhome, heq, hrange], by simp [heq], ?_,
      by simp [pulse_count], by simp [wait_count, Event.is_wait]⟩
    intro e he
    simp only [List.mem_singleton] at he
    subst he
    exact ⟨rfl, rfl⟩

/-- C7 at targets 201 and -1 of a 200-step revolution. -/
theorem go_to_position_target_out_of_range_witness :
    (∃ tr, (homed 200 10).go_to_position true 60 201 = some (homed 200 10, tr) ∧
      tr = (if (201 : Int) = (homed 200 10).m_steps_from_home then []
            else [Event.println Message.target_out_of_range]) ∧
      quiet tr ∧ pulse_count (homed 200 10).m_pulse_pin tr = 0 ∧ wait_count tr = 0) ∧
    (homed 200 10).go_to_position false 60 (-1) =
      some (homed 200 10, [Event.println Message.target_out_of_range]) :=
  ⟨go_to_position_target_out_of_range (homed 200 10) true 60 201 (by decide)
     (by decide), by decide⟩

/-- C8: with home set, `go_to_position` with the target equal to the stored
offset does nothing, for every preference and every rpm: the object is
unchanged and the trace is empty. -/
theorem go_to_position_already_there (m : StepperMotor) (turn_clockwise : Bool)
    (rpm target : Int) (hhome : m.m_is_home_position_set = true)
    (heq : target = m.m_steps_from_home) :
    m.go_to_position turn_clockwise rpm target = some (m, []) := by
  simp [go_to_position, hhome, heq]

/-- C8 at `spr = 200`, offset 0, clockwise to target 0, with an rpm above the
maximum. -/
theorem go_to_position_already_there_witness :
    (homed 200 0).go_to_position true 60 0 = some (homed 200 0, []) ∧
    (homed 200 0).go_to_position true 301 0 = some (homed 200 0, []) :=
  ⟨go_to_position_already_there (homed 200 0) true 60 0 (by decide) (by decide),
   by decide⟩

/-! ## The alias `target = steps_per_revolution` -/

/-- C9, as stated, fails at offset 0. On an 8-step revolution at home,
clockwise to target 8 issues 8 pulses and stores offset 1, while clockwise to
target 0 does nothing; counter-clockwise to target 8 issues no pulse but stores
offset 7. So neither the pulse counts nor the final states agree. -/
theorem go_to_position_full_scale_differs_at_home :
    ((homed 8 0).go_to_position true 60 8).map
        (fun r => (pulse_count 4 r.2, r.1.m_steps_from_home)) = some (8, 1) ∧
    ((homed 8 0).go_to_position true 60 0).map
        (fun r => (pulse_count 4 r.2, r.1.m_steps_from_home)) = some (0, 0) ∧
    ((homed 8 0).go_to_position false 60 8).map
        (fun r => (pulse_count 4 r.2, r.1.m_steps_from_home)) = some (0, 7) ∧
    ((homed 8 0).go_to_position false 60 0).map
        (fun r => (pulse_count 4 r.2, r.1.m_steps_from_home)) = some (0, 0) ∧
    ¬ (((homed 8 0).go_to_position true 60 8).map (fun r => pulse_count 4 r.2) =
          ((homed 8 0).go_to_position true 60 0).map (fun r => pulse_count 4 r.2) ∧
        ((homed 8 0).go_to_position true 60 8).map (fun r => r.1) =
          ((homed 8 0).go_to_position true 60 0).map (fun r => r.1)) := by
  decide

/-- C9, amended: with home set, an offset `p` with `0 < p < spr`, either
preference and `1 ≤ rpm ≤ max_rpm`, `go_to_position(pref, rpm, spr)` and
`go_to_position(pref, rpm, 0)` both return, with the same trace (hence the same
number of pulses) and the same final state: each is the call
`step(spr - p, pref, rpm)` clockwise and `step(p, pref, rpm)` counter-clockwise. -/
theorem go_to_position_full_scale_eq_zero (m : StepperMotor) (pref : Bool) (rpm : Int)
    (hhome : m.m_is_home_position_set = true)
    (hp0 : 0 < m.m_steps_from_home) (hp1 : m.m_steps_from_home < m.m_steps_per_revolution)
    (hrpm : 1 ≤ rpm) (hmax : rpm ≤ m.m_max_rpm) :
    m.go_to_position pref rpm m.m_steps_per_revolution = m.go_to_position pref rpm 0 ∧
    m.go_to_position pref rpm 0 =
      m.step (if pref then m.m_steps_per_revolution - m.m_steps_from_home
              else m.m_steps_from_home) pref rpm ∧
    ∃ r, m.go_to_position pref rpm 0 = some r := by
  have e0 : m.go_to_position pref rpm 0 =
      m.step (if pref then m.m_steps_per_revolution - m.m_steps_from_home
              else m.m_steps_from_home) pref rpm := by
    rw [go_to_position_eq_step m pref rpm 0 hhome (by omega) (by omega) (by omega)]
    have hgt : ¬ (0 > m.m_steps_from_home) := by omega
    cases pref <;> simp [go_to_position_steps, hgt]
  have e1 : m.go_to_position pref rpm m.m_steps_per_revolution =
      m.step (if pref then m.m_steps_per_revolution - m.m_steps_from_home
              else m.m_steps_from_home) pref rpm := by
    rw [go_to_position_eq_step m pref rpm _ hhome (by omega) (by omega) (by omega)]
    have hgt : m.m_steps_per_revolution > m.m_steps_from_home := by omega
    cases pref <;> simp [go_to_position_steps, hgt]
  refine ⟨e1.trans e0.symm, e0, ?_⟩
  rw [e0, step_eq_of_valid m _ pref rpm hmax (by omega) (by omega)]
  exact ⟨_, rfl⟩

/-- C9 amended, at offset 10 of a 200-step revolution, clockwise. -/
theorem go_to_position_full_scale_eq_zero_witness :
    (homed 200 10).go_to_position true 60 (homed 200 10).m_steps_per_revolution =
        (homed 200 10).go_to_position true 60 0 ∧
    (homed 200 10).go_to_position true 60 0 =
      (homed 200 10).step
        (if true then (homed 200 10).m_steps_per_revolution - (homed 200 10).m_steps_from_home
         else (homed 200 10).m_steps_from_home) true 60 ∧
    ∃ r, (homed 200 10).go_to_position true 60 0 = some r :=
  go_to_position_full_scale_eq_zero (homed 200 10) true 60 (by decide) (by decide)
    (by decide) (by decide) (by decide)

/-! ## The I/O trace of `step` -/

/-- C10: for a step count `n ≥ 0`, either direction and `1 ≤ rpm ≤ max_rpm`
(the revolution having a non-zero number of steps, as the data model requires),
the delay `d` is computed and `step` returns the trace: direction pin (`HIGH`
clockwise, `LOW` counter-clockwise), enable pin `LOW`, `n` times
`[pulse HIGH, wait d, pulse LOW, wait d]`, then enable pin `HIGH` exactly when
`hold_position` is false. The trace holds `2 * n` waits. -/
theorem step_trace (m : StepperMotor) (n : Nat) (turn_clockwise : Bool) (rpm : Int)
    (hrpm : 1 ≤ rpm) (hmax : rpm ≤ m.m_max_rpm) (hspr : m.m_steps_per_revolution ≠ 0) :
    ∃ d s tr, m.calculate_delay_from_rpm rpm = some d ∧
      m.step (n : Int) turn_clockwise rpm = some (s, tr) ∧
      tr = [Event.digitalWrite m.m_direction_pin (if turn_clockwise then Level.HIGH else Level.LOW),
            Event.digitalWrite m.m_enable_pin Level.LOW] ++
           (List.replicate n
              [Event.digitalWrite m.m_pulse_pin Level.HIGH, Event.delay d,
               Event.digitalWrite m.m_pulse_pin Level.LOW, Event.delay d]).flatten ++
           (if m.m_hold_position then [] else [Event.digitalWrite m.m_enable_pin Level.HIGH]) ∧
      wait_count tr = 2 * n := by
  refine ⟨_, _, _, calculate_delay_from_rpm_eq m rpm (by omega) hspr,
    step_eq_of_valid m n turn_clockwise rpm hmax (by omega) hspr, ?_, ?_⟩
  · rw [Int.toNat_ofNat, pulse_loop_eq_replicate]
    rfl
  · have hw := wait_count_pulse_loop m.m_pulse_pin
      (Int.tdiv (Int.tdiv 60000 rpm) (m.m_steps_per_revolution * 2)) n
    simp only [wait_count] at hw
    rw [Int.toNat_ofNat]
    cases m.m_hold_position <;>
      simp [wait_count, List.filter_cons, Event.is_wait, hw]

/-- C10 on three pulses at 60 rpm on a 200-step revolution: the delay is 2 ms
and exactly three pulses are written to the pulse pin. -/
theorem step_trace_witness :
    (∃ d s tr, (homed 200 0).calculate_delay_from_rpm 60 = some d ∧
      (homed 200 0).step ((3 : Nat) : Int) false 60 = some (s, tr) ∧
      tr = [Event.digitalWrite (homed 200 0).m_direction_pin
              (if false then Level.HIGH else Level.LOW),
            Event.digitalWrite (homed 200 0).m_enable_pin Level.LOW] ++
           (List.replicate 3
              [Event.digitalWrite (homed 200 0).m_pulse_pin Level.HIGH, Event.delay d,
               Event.digitalWrite (homed 200 0).m_pulse_pin Level.LOW, Event.delay d]).flatten ++
           (if (homed 200 0).m_hold_position then []
            else [Event.digitalWrite (homed 200 0).m_enable_pin Level.HIGH]) ∧
      wait_count tr = 2 * 3) ∧
    (homed 200 0).calculate_delay_from_rpm 60 = some 2 ∧
    ((homed 200 0).step 3 false 60).map (fun r => pulse_count 4 r.2) = some 3 :=
  ⟨step_trace (homed 200 0) 3 false 60 (by decide) (by decide) (by decide),
   by decide, by decide⟩

end StepperMotor

/-! ## Helper lemmas on position tracking -/

namespace StepperMotor

theorem update_position_clockwise (m : StepperMotor)
    (hhome : m.m_is_home_position_set = true) :
    m.update_position true =
      { m with m_steps_from_home :=
          if m.m_steps_from_home + 1 = m.m_steps_per_revolution then 0
          else m.m_steps_from_home + 1 } := by
  by_cases h : m.m_steps_from_home + 1 = m.m_steps_per_revolution <;>
    simp [update_position, hhome, h]

theorem update_position_counter_clockwise (m : StepperMotor)
    (hhome : m.m_is_home_position_set = true) :
    m.update_position false =
      { m with m_steps_from_home :=
          if m.m_steps_from_home = 0 then m.m_steps_per_revolution - 1
          else m.m_steps_from_home - 1 } := by
  by_cases h : m.m_steps_from_home = 0 <;>
    simp [update_position, hhome, h]

theorem update_position_configuration (m : StepperMotor) (turn_clockwise : Bool) :
    (m.update_position turn_clockwise).configuration = m.configuration := by
  cases hh : m.m_is_home_position_set
  · simp [update_position, hh]
  · cases turn_clockwise
    · rw [update_position_counter_clockwise m hh]; rfl
    · rw [update_position_clockwise m hh]; rfl

theorem update_position_tracking (m : StepperMotor) (turn_clockwise : Bool)
    (h : m.tracking) : (m.update_position turn_clockwise).tracking := by
  obtain ⟨hh, h0, h1⟩ := h
  cases turn_clockwise
  · rw [update_position_counter_clockwise m hh]
    refine ⟨hh, ?_, ?_⟩ <;> dsimp only <;> split <;> omega
  · rw [update_position_clockwise m hh]
    refine ⟨hh, ?_, ?_⟩ <;> dsimp only <;> split <;> omega

theorem update_position_modular (m : StepperMotor) (turn_clockwise : Bool)
    (hhome : m.m_is_home_position_set = true)
    (hp0 : 0 ≤ m.m_steps_from_home) (hp1 : m.m_steps_from_home < m.m_steps_per_revolution) :
    m.update_position turn_clockwise =
      { m with m_steps_from_home :=
          if turn_clockwise then (m.m_steps_from_home + 1) % m.m_steps_per_revolution
          else (m.m_steps_from_home + m.m_steps_per_revolution - 1)
                % m.m_steps_per_revolution } := by
  cases turn_clockwise
  · rw [update_position_counter_clockwise m hhome]
    by_cases h : m.m_steps_from_home = 0
    · have e : (m.m_steps_from_home + m.m_steps_per_revolution - 1) % m.m_steps_per_revolution
          = m.m_steps_per_revolution - 1 :=
        emod_of_shift _ (m.m_steps_per_revolution - 1) _ 0 (by omega) (by omega) (by omega)
      simp [h, e]
      simpa [h] using e.symm
    · have e : (m.m_steps_from_home + m.m_steps_per_revolution - 1) % m.m_steps_per_revolution
          = m.m_steps_from_home - 1 :=
        emod_of_shift _ (m.m_steps_from_home - 1) _ 1 (by omega) (by omega) (by ring)
      simp [h, e]
  · rw [update_position_clockwise m hhome]
    by_cases h : m.m_steps_from_home + 1 = m.m_steps_per_revolution
    · have e : (m.m_steps_from_home + 1) % m.m_steps_per_revolution = 0 := by
        rw [h]; exact Int.emod_self
      simp [h, e]
    · have e : (m.m_steps_from_home + 1) % m.m_steps_per_revolution
          = m.m_steps_from_home + 1 :=
        emod_of_shift _ (m.m_steps_from_home + 1) _ 0 (by omega) (by omega) (by ring)
      simp [h, e]

theorem step_tracking (m : StepperMotor) (steps : Int) (turn_clockwise : Bool) (rpm : Int)
    (h : m.tracking) (hrpm : 1 ≤ rpm) :
    ∃ s tr, m.step steps turn_clockwise rpm = some (s, tr) ∧ s.tracking ∧
      s.configuration = m.configuration := by
  by_cases hmax : rpm > m.m_max_rpm
  · exact ⟨m, [Event.println Message.rpm_too_high], by simp [step, hmax], h, rfl⟩
  · have hspr : m.m_steps_per_revolution ≠ 0 := by
      obtain ⟨_, h0, h1⟩ := h
      omega
    exact ⟨_, _, step_eq_of_valid m steps turn_clockwise rpm (by omega) (by omega) hspr,
      update_position_tracking m turn_clockwise h,
      update_position_configuration m turn_clockwise⟩

theorem go_to_position_cases (m : StepperMotor) (turn_clockwise : Bool) (rpm target : Int) :
    (∃ tr, m.go_to_position turn_clockwise rpm target = some (m, tr)) ∨
    (∃ n, m.go_to_position turn_clockwise rpm target = m.step n turn_clockwise rpm) := by
  unfold go_to_position
  split
  · exact Or.inl ⟨_, rfl⟩
  · split
    · exact Or.inl ⟨_, rfl⟩
    · split
      · exact Or.inl ⟨_, rfl⟩
      · split <;> split <;> exact Or.inr ⟨_, rfl⟩

theorem call_tracking (m : StepperMotor) (c : Call) (h : m.tracking)
    (hrpm : c.rpm_positive = true) :
    ∃ s tr, m.call c = some (s, tr) ∧ s.tracking ∧ s.configuration = m.configuration := by
  cases c with
  | update_position cw =>
    exact ⟨_, _, rfl, update_position_tracking m cw h, update_position_configuration m cw⟩
  | step n cw rpm =>
    exact step_tracking m n cw rpm h (by simpa [Call.rpm_positive] using hrpm)
  | do_one_rotation cw rpm =>
    exact step_tracking m _ cw rpm h (by simpa [Call.rpm_positive] using hrpm)
  | rotate k cw rpm =>
    exact step_tracking m _ cw rpm h (by simpa [Call.rpm_positive] using hrpm)
  | set_current_position_as_home =>
    obtain ⟨_, h0, h1⟩ := h
    refine ⟨_, _, rfl, ⟨rfl, ?_, ?_⟩, rfl⟩
    · exact le_refl (0 : Int)
    · show (0 : Int) < m.m_steps_per_revolution
      omega
  | go_to_position cw rpm t =>
    rcases go_to_position_cases m cw rpm t with ⟨tr, e⟩ | ⟨n, e⟩
    · exact ⟨m, tr, e, h, rfl⟩
    · obtain ⟨s, tr, e2, hs⟩ :=
        step_tracking m n cw rpm h (by simpa [Call.rpm_positive] using hrpm)
      exact ⟨s, tr, by simp only [call]; rw [e, e2], hs⟩

theorem run_tracking (calls : List Call) :
    ∀ m : StepperMotor, m.tracking → (∀ c ∈ calls, c.rpm_positive = true) →
      ∃ s tr, m.run calls = some (s, tr) ∧ s.tracking ∧ s.configuration = m.configuration := by
  induction calls with
  | nil =>
    intro m h _
    exact ⟨m, [], rfl, h, rfl⟩
  | cons c cs ih =>
    intro m h hr
    obtain ⟨s1, tr1, e1, h1, c1⟩ := call_tracking m c h (hr c (List.mem_cons_self c cs))
    obtain ⟨s2, tr2, e2, h2, c2⟩ := ih s1 h1 (fun d hd => hr d (List.mem_cons_of_mem c hd))
    exact ⟨s2, tr1 ++ tr2, by simp [run, e1, e2], h2, c2.trans c1⟩

end StepperMotor

/-! ## Position tracking: circular counter, range invariant, round trips -/

namespace StepperMotor

/-- C11: for an offset `p` in `[0, spr)` (so `spr ≥ 1`), with home set
`update_position(true)` stores `(p + 1) % spr` and `update_position(false)`
stores `(p + spr - 1) % spr`, nothing else changing; with home not set
`update_position` leaves the object unchanged. -/
theorem update_position_circular_counter (m : StepperMotor)
    (hp0 : 0 ≤ m.m_steps_from_home) (hp1 : m.m_steps_from_home < m.m_steps_per_revolution) :
    (m.m_is_home_position_set = true →
      m.update_position true =
          { m with m_steps_from_home :=
              (m.m_steps_from_home + 1) % m.m_steps_per_revolution } ∧
      m.update_position false =
          { m with m_steps_from_home :=
              (m.m_steps_from_home + m.m_steps_per_revolution - 1)
                % m.m_steps_per_revolution }) ∧
    (m.m_is_home_position_set = false →
      ∀ turn_clockwise, m.update_position turn_clockwise = m) := by
  refine ⟨fun hhome => ⟨?_, ?_⟩, fun hhome cw => by simp [update_position, hhome]⟩
  · simpa using update_position_modular m true hhome hp0 hp1
  · simpa using update_position_modular m false hhome hp0 hp1

/-- C11 at offset 0 of a 200-step revolution: counter-clockwise stores 199,
clockwise stores 1; at offset 199 clockwise stores 0. -/
theorem update_position_circular_counter_witness :
    (((homed 200 0).m_is_home_position_set = true →
      (homed 200 0).update_position true =
          { homed 200 0 with m_steps_from_home :=
              ((homed 200 0).m_steps_from_home + 1) % (homed 200 0).m_steps_per_revolution } ∧
      (homed 200 0).update_position false =
          { homed 200 0 with m_steps_from_home :=
              ((homed 200 0).m_steps_from_home + (homed 200 0).m_steps_per_revolution - 1)
                % (homed 200 0).m_steps_per_revolution }) ∧
      ((homed 200 0).m_is_home_position_set = false →
        ∀ turn_clockwise, (homed 200 0).update_position turn_clockwise = homed 200 0)) ∧
    ((homed 200 0).update_position false).m_steps_from_home = 199 ∧
    ((homed 200 0).update_position true).m_steps_from_home = 1 ∧
    ((homed 200 199).update_position true).m_steps_from_home = 0 :=
  ⟨update_position_circular_counter (homed 200 0) (by decide) (by decide),
   by decide, by decide, by decide⟩

/-- C12: for `spr ≥ 1`, after `set_current_position_as_home` every finite
sequence of `update_position`, `step`, `do_one_rotation`, `rotate`,
`go_to_position` and `set_current_position_as_home` calls whose rpm arguments
are at least 1 runs to completion and ends in a state with
`0 ≤ steps_from_home < steps_per_revolution`, the configuration being the one
it started from. -/
theorem steps_from_home_range_invariant (m : StepperMotor) (calls : List Call)
    (hspr : 1 ≤ m.m_steps_per_revolution)
    (hrpm : ∀ c ∈ calls, c.rpm_positive = true) :
    ∃ s tr, m.set_current_position_as_home.run calls = some (s, tr) ∧
      0 ≤ s.m_steps_from_home ∧ s.m_steps_from_home < s.m_steps_per_revolution ∧
      s.m_steps_per_revolution = m.m_steps_per_revolution := by
  have h0 : m.set_current_position_as_home.tracking :=
    ⟨rfl, le_refl (0 : Int), by show (0 : Int) < m.m_steps_per_revolution; omega⟩
  obtain ⟨s, tr, e, ⟨_, hs0, hs1⟩, hc⟩ :=
    run_tracking calls m.set_current_position_as_home h0 hrpm
  refine ⟨s, tr, e, hs0, hs1, ?_⟩
  have hc2 := congrArg (fun c => c.2.2.2.1) hc
  exact hc2

/-- C12 on a fresh 8-step motor driven through every kind of call. -/
theorem steps_from_home_range_invariant_witness :
    (∃ s tr, (create 2 3 4 8 300 false 1234).1.set_current_position_as_home.run
        [Call.step 3 true 60, Call.update_position false, Call.rotate 2 false 60,
         Call.go_to_position true 400 5, Call.do_one_rotation true 60,
         Call.go_to_position false 60 8, Call.set_current_position_as_home,
         Call.update_position false] = some (s, tr) ∧
      0 ≤ s.m_steps_from_home ∧ s.m_steps_from_home < s.m_steps_per_revolution ∧
      s.m_steps_per_revolution = (create 2 3 4 8 300 false 1234).1.m_steps_per_revolution) ∧
    ((create 2 3 4 8 300 false 1234).1.set_current_position_as_home.run
        [Call.step 3 true 60, Call.update_position false, Call.rotate 2 false 60,
         Call.go_to_position true 400 5, Call.do_one_rotation true 60,
         Call.go_to_position false 60 8, Call.set_current_position_as_home,
         Call.update_position false]).map (fun r => r.1.m_steps_from_home) = some 7 :=
  ⟨steps_from_home_range_invariant (create 2 3 4 8 300 false 1234).1 _ (by decide)
     (by decide), by decide⟩

/-- C13: evaluation of the round trip where the claim fails. From offset 0 of
an 8-step revolution with home set, `step(8, true, 60)`, which is what
`do_one_rotation(true, 60)` calls, issues 8 pulses and stores offset 1, not 0;
one `update_position` per pulse would store 0. -/
theorem full_rotation_stores_offset_one :
    ((homed 8 0).step 8 true 60).map
        (fun r => (r.1.m_steps_from_home, pulse_count 4 r.2)) = some (1, 8) ∧
    (homed 8 0).do_one_rotation true 60 = (homed 8 0).step 8 true 60 ∧
    (Nat.iterate (fun s => s.update_position true) 8 (homed 8 0)).m_steps_from_home
        = 0 := by
  decide

/-- C14: with home set, an offset `p` in `[0, spr)` (so `spr ≥ 1`), every `N`
(in particular every `N ≥ 0`) and `1 ≤ rpm ≤ max_rpm`, `step(N, true, rpm)`
followed by `step(N, false, rpm)` both return and the object, in particular
`steps_from_home`, is back to what it was. -/
theorem step_clockwise_then_counter_clockwise (m : StepperMotor) (N : Int) (rpm : Int)
    (hhome : m.m_is_home_position_set = true)
    (hp0 : 0 ≤ m.m_steps_from_home) (hp1 : m.m_steps_from_home < m.m_steps_per_revolution)
    (hrpm : 1 ≤ rpm) (hmax : rpm ≤ m.m_max_rpm) :
    ∃ s1 tr1 s2 tr2, m.step N true rpm = some (s1, tr1) ∧
      s1.step N false rpm = some (s2, tr2) ∧
      s2.m_steps_from_home = m.m_steps_from_home ∧ s2 = m := by
  have hspr : m.m_steps_per_revolution ≠ 0 := by omega
  have e1 := step_eq_of_valid m N true rpm hmax (by omega) hspr
  have hc := update_position_configuration m true
  have hspr1 : (m.update_position true).m_steps_per_revolution = m.m_steps_per_revolution :=
    congrArg (fun c => c.2.2.2.1) hc
  have hmax1 : (m.update_position true).m_max_rpm = m.m_max_rpm :=
    congrArg (fun c => c.2.2.2.2.1) hc
  have e2 := step_eq_of_valid (m.update_position true) N false rpm
    (by rw [hmax1]; exact hmax) (by omega) (by rw [hspr1]; exact hspr)
  have back : (m.update_position true).update_position false = m := by
    obtain ⟨en, dir, pl, mx, hold, spr, p, home⟩ := m
    simp only at hhome hp0 hp1
    subst hhome
    by_cases h : p + 1 = spr
    · have hs : spr - 1 = p := by omega
      simp [update_position, h, hs]
    · have hz : ¬ p + 1 = 0 := by omega
      simp [update_position, h, hz]
  exact ⟨_, _, _, _, e1, e2, by rw [back], back⟩

/-- C14 at offset 199 of a 200-step revolution, `N = 3`. -/
theorem step_clockwise_then_counter_clockwise_witness :
    ∃ s1 tr1 s2 tr2, (homed 200 199).step 3 true 60 = some (s1, tr1) ∧
      s1.step 3 false 60 = some (s2, tr2) ∧
      s2.m_steps_from_home = (homed 200 199).m_steps_from_home ∧ s2 = homed 200 199 :=
  step_clockwise_then_counter_clockwise (homed 200 199) 3 60 (by decide) (by decide)
    (by decide) (by decide) (by decide)

end StepperMotor

/-! ## Helper lemmas on the delay -/

namespace StepperMotor

theorem ediv_ediv_pos (a n k : Int) (hn : 0 < n) (hk : 0 < k) :
    a / n / k = a / (n * k) := by
  have hnk : 0 < n * k := Int.mul_pos hn hk
  apply le_antisymm
  · apply (Int.le_ediv_iff_mul_le hnk).2
    have h1 : a / n / k * k ≤ a / n := (Int.le_ediv_iff_mul_le hk).1 (le_refl _)
    have h2 : a / n / k * k * n ≤ a := (Int.le_ediv_iff_mul_le hn).1 h1
    calc a / n / k * (n * k) = a / n / k * k * n := by ring
      _ ≤ a := h2
  · apply (Int.le_ediv_iff_mul_le hk).2
    apply (Int.le_ediv_iff_mul_le hn).2
    have h1 : a / (n * k) * (n * k) ≤ a := (Int.le_ediv_iff_mul_le hnk).1 (le_refl _)
    calc a / (n * k) * k * n = a / (n * k) * (n * k) := by ring
      _ ≤ a := h1

theorem delay_eq_floor (rpm spr : Int) (hrpm : 1 ≤ rpm) (hspr : 1 ≤ spr) :
    Int.tdiv (Int.tdiv 60000 rpm) (spr * 2) = 60000 / (rpm * (spr * 2)) := by
  have h1 : Int.tdiv 60000 rpm = 60000 / rpm :=
    Int.tdiv_eq_ediv (by decide) (by omega)
  have h2 : (0 : Int) ≤ 60000 / rpm := Int.ediv_nonneg (by decide) (by omega)
  rw [h1, Int.tdiv_eq_ediv h2 (by omega), ediv_ediv_pos _ _ _ (by omega) (by omega)]

theorem floor_eq_zero_iff (b : Int) (hb : 0 < b) : (60000 : Int) / b = 0 ↔ 60000 < b := by
  constructor
  · intro h
    by_contra hlt
    have h1 : (1 : Int) ≤ 60000 / b := Int.le_ediv_of_mul_le hb (by omega)
    omega
  · intro h
    exact Int.ediv_eq_zero_of_lt (by decide) h

theorem floor_antitone (b1 b2 : Int) (hb1 : 0 < b1) (hle : b1 ≤ b2) :
    (60000 : Int) / b2 ≤ 60000 / b1 := by
  have hb2 : 0 < b2 := lt_of_lt_of_le hb1 hle
  have hq : (0 : Int) ≤ 60000 / b2 := Int.ediv_nonneg (by decide) (le_of_lt hb2)
  have h1 : 60000 / b2 * b2 ≤ 60000 := Int.ediv_mul_le _ (by omega)
  have h2 : 60000 / b2 * b1 ≤ 60000 / b2 * b2 := mul_le_mul_of_nonneg_left hle hq
  exact Int.le_ediv_of_mul_le hb1 (le_trans h2 h1)

end StepperMotor

/-! ## Timing computation -/

namespace StepperMotor

/-- C15: for `rpm > 0` and `spr ≥ 1`, `calculate_delay_from_rpm(rpm)` returns
`(60000 / rpm) / (spr * 2)`, both divisions truncating (on these non-negative
operands truncation and floor agree). The result is the same whatever
`steps_from_home` and `home_is_set` hold; the function returns a value only and
assigns no member. -/
theorem calculate_delay_from_rpm_value (m : StepperMotor) (rpm : Int)
    (hrpm : 0 < rpm) (hspr : 1 ≤ m.m_steps_per_revolution) :
    m.calculate_delay_from_rpm rpm =
        some (Int.tdiv (Int.tdiv 60000 rpm) (m.m_steps_per_revolution * 2)) ∧
    Int.tdiv (Int.tdiv 60000 rpm) (m.m_steps_per_revolution * 2) =
        60000 / rpm / (m.m_steps_per_revolution * 2) ∧
    ∀ (offset : Int) (home : Bool),
      ({ m with m_steps_from_home := offset, m_is_home_position_set := home }
          : StepperMotor).calculate_delay_from_rpm rpm = m.calculate_delay_from_rpm rpm := by
  refine ⟨calculate_delay_from_rpm_eq m rpm (by omega) (by omega), ?_, fun _ _ => rfl⟩
  have h1 : Int.tdiv 60000 rpm = 60000 / rpm := Int.tdiv_eq_ediv (by decide) (by omega)
  have h2 : (0 : Int) ≤ 60000 / rpm := Int.ediv_nonneg (by decide) (by omega)
  rw [h1, Int.tdiv_eq_ediv h2 (by omega)]

/-- C15 at 60 rpm on a 200-step revolution: 1000 ms per revolution, 2 ms per
half pulse; at 7 rpm the two truncations give 8571 then 21. -/
theorem calculate_delay_from_rpm_value_witness :
    ((homed 200 0).calculate_delay_from_rpm 60 =
        some (Int.tdiv (Int.tdiv 60000 60) ((homed 200 0).m_steps_per_revolution * 2)) ∧
      Int.tdiv (Int.tdiv 60000 60) ((homed 200 0).m_steps_per_revolution * 2) =
        60000 / 60 / ((homed 200 0).m_steps_per_revolution * 2) ∧
      ∀ (offset : Int) (home : Bool),
        ({ homed 200 0 with m_steps_from_home := offset, m_is_home_position_set := home }
            : StepperMotor).calculate_delay_from_rpm 60 =
          (homed 200 0).calculate_delay_from_rpm 60) ∧
    (homed 200 0).calculate_delay_from_rpm 60 = some 2 ∧
    (homed 200 0).calculate_delay_from_rpm 7 = some 21 :=
  ⟨calculate_delay_from_rpm_value (homed 200 0) 60 (by decide) (by decide),
   by decide, by decide⟩

/-- C19: for `rpm ≥ 1` and `spr ≥ 1` the two successive truncating divisions
amount to one floor: the delay `d` returned is `60000 / (rpm * spr * 2)` rounded
down, that is `d * (rpm * spr * 2) ≤ 60000 < (d + 1) * (rpm * spr * 2)`. Hence
`d = 0` exactly when `2 * rpm * spr > 60000`, and a larger rpm never gives a
larger delay. -/
theorem calculate_delay_from_rpm_single_floor (m : StepperMotor) (rpm : Int)
    (hrpm : 1 ≤ rpm) (hspr : 1 ≤ m.m_steps_per_revolution) :
    ∃ d, m.calculate_delay_from_rpm rpm = some d ∧
      d = 60000 / (rpm * m.m_steps_per_revolution * 2) ∧
      d * (rpm * m.m_steps_per_revolution * 2) ≤ 60000 ∧
      60000 < (d + 1) * (rpm * m.m_steps_per_revolution * 2) ∧
      (d = 0 ↔ 2 * rpm * m.m_steps_per_revolution > 60000) ∧
      ∀ rpm2, rpm ≤ rpm2 →
        ∃ d2, m.calculate_delay_from_rpm rpm2 = some d2 ∧ d2 ≤ d := by
  have hb : 0 < rpm * (m.m_steps_per_revolution * 2) := Int.mul_pos (by omega) (by omega)
  have eb : rpm * m.m_steps_per_revolution * 2 = rpm * (m.m_steps_per_revolution * 2) := by
    ring
  refine ⟨_, calculate_delay_from_rpm_eq m rpm (by omega) (by omega), ?_, ?_, ?_, ?_, ?_⟩
  · rw [delay_eq_floor rpm _ hrpm hspr, eb]
  · rw [delay_eq_floor rpm _ hrpm hspr, eb]
    exact Int.ediv_mul_le _ (by omega)
  · rw [delay_eq_floor rpm _ hrpm hspr, eb]
    have h := Int.lt_mul_ediv_self_add (x := 60000) hb
    calc (60000 : Int) < rpm * (m.m_steps_per_revolution * 2)
            * (60000 / (rpm * (m.m_steps_per_revolution * 2)))
            + rpm * (m.m_steps_per_revolution * 2) := h
      _ = (60000 / (rpm * (m.m_steps_per_revolution * 2)) + 1)
            * (rpm * (m.m_steps_per_revolution * 2)) := by ring
  · rw [delay_eq_floor rpm _ hrpm hspr, floor_eq_zero_iff _ hb]
    constructor <;> intro h
    · calc (60000 : Int) < rpm * (m.m_steps_per_revolution * 2) := h
        _ = 2 * rpm * m.m_steps_per_revolution := by ring
    · calc (60000 : Int) < 2 * rpm * m.m_steps_per_revolution := h
        _ = rpm * (m.m_steps_per_revolution * 2) := by ring
  · intro rpm2 hle
    refine ⟨_, calculate_delay_from_rpm_eq m rpm2 (by omega) (by omega), ?_⟩
    rw [delay_eq_floor rpm _ hrpm hspr, delay_eq_floor rpm2 _ (by omega) hspr]
    exact floor_antitone _ _ hb (mul_le_mul_of_nonneg_right hle (by omega))

/-- C19 at `spr = 200`, `rpm = 300`: `2 * 300 * 200 = 120000 > 60000` and the
delay is 0; at 150 rpm the product is exactly 60000 and the delay is 1. -/
theorem calculate_delay_from_rpm_single_floor_witness :
    (∃ d, (homed 200 0).calculate_delay_from_rpm 300 = some d ∧
      d = 60000 / (300 * (homed 200 0).m_steps_per_revolution * 2) ∧
      d * (300 * (homed 200 0).m_steps_per_revolution * 2) ≤ 60000 ∧
      60000 < (d + 1) * (300 * (homed 200 0).m_steps_per_revolution * 2) ∧
      (d = 0 ↔ 2 * 300 * (homed 200 0).m_steps_per_revolution > 60000) ∧
      ∀ rpm2, 300 ≤ rpm2 →
        ∃ d2, (homed 200 0).calculate_delay_from_rpm rpm2 = some d2 ∧ d2 ≤ d) ∧
    (homed 200 0).calculate_delay_from_rpm 300 = some 0 ∧
    (homed 200 0).calculate_delay_from_rpm 150 = some 1 :=
  ⟨calculate_delay_from_rpm_single_floor (homed 200 0) 300 (by decide) (by decide),
   by decide, by decide⟩

/-- C20: for `spr ≥ 1` and `1 ≤ rpm ≤ max_rpm` no divisor of the delay
computation is zero: `calculate_delay_from_rpm` returns a delay, and `step`,
`do_one_rotation`, `rotate` and `go_to_position` return for all their other
arguments. The guard of `step` lets `rpm = 0` through whenever `max_rpm ≥ 0`,
and the call then fails on the division by zero. -/
theorem step_division_safe (m : StepperMotor) (steps rotations target : Int)
    (turn_clockwise : Bool) (rpm : Int)
    (hspr : 1 ≤ m.m_steps_per_revolution) (hrpm : 1 ≤ rpm) (hmax : rpm ≤ m.m_max_rpm) :
    (∃ d, m.calculate_delay_from_rpm rpm = some d) ∧
    (∃ r, m.step steps turn_clockwise rpm = some r) ∧
    (∃ r, m.do_one_rotation turn_clockwise rpm = some r) ∧
    (∃ r, m.rotate rotations turn_clockwise rpm = some r) ∧
    (∃ r, m.go_to_position turn_clockwise rpm target = some r) ∧
    (0 ≤ m.m_max_rpm →
      m.calculate_delay_from_rpm 0 = none ∧ m.step steps turn_clockwise 0 = none) := by
  have hs : ∀ n, ∃ r, m.step n turn_clockwise rpm = some r := fun n =>
    ⟨_, step_eq_of_valid m n turn_clockwise rpm hmax (by omega) (by omega)⟩
  refine ⟨⟨_, calculate_delay_from_rpm_eq m rpm (by omega) (by omega)⟩, hs _, hs _, hs _,
    ?_, ?_⟩
  · rcases go_to_position_cases m turn_clockwise rpm target with ⟨tr, e⟩ | ⟨n, e⟩
    · exact ⟨_, e⟩
    · rw [e]
      exact hs n
  · intro h0
    have hg : ¬ (0 : Int) > m.m_max_rpm := by omega
    exact ⟨by simp [calculate_delay_from_rpm],
      by simp [step, hg, calculate_delay_from_rpm]⟩

/-- C20 on a 200-step motor with `max_rpm = 300` at 60 rpm; at `rpm = 0` the
same motor fails in `step`. -/
theorem step_division_safe_witness :
    ((∃ d, (homed 200 0).calculate_delay_from_rpm 60 = some d) ∧
      (∃ r, (homed 200 0).step 5 true 60 = some r) ∧
      (∃ r, (homed 200 0).do_one_rotation true 60 = some r) ∧
      (∃ r, (homed 200 0).rotate 2 true 60 = some r) ∧
      (∃ r, (homed 200 0).go_to_position true 60 50 = some r) ∧
      (0 ≤ (homed 200 0).m_max_rpm →
        (homed 200 0).calculate_delay_from_rpm 0 = none ∧
        (homed 200 0).step 5 true 0 = none)) ∧
    (homed 200 0).step 5 true 0 = none :=
  ⟨step_division_safe (homed 200 0) 5 2 50 true 60 (by decide) (by decide) (by decide),
   by decide⟩

end StepperMotor

/-! ## Construction, homing, and the single position update of `step` -/

namespace StepperMotor

/-- C16: for every argument tuple the constructor stores the three pins,
`steps_per_revolution`, `max_rpm` and `hold_position`, leaves
`home_is_set = false`, and its trace is: enable, direction and pulse pin set
as outputs, then one write of the enable pin, `LOW` (energized, the level
`step` writes to enable the driver) when `hold_position` is true and `HIGH`
otherwise. -/
theorem create_establishes_idle_state
    (enable_pin direction_pin pulse_pin steps_per_revolution max_rpm : Int)
    (hold_position : Bool) (uninitialised : Int) :
    create enable_pin direction_pin pulse_pin steps_per_revolution max_rpm hold_position
        uninitialised =
      ({ m_enable_pin := enable_pin
         m_direction_pin := direction_pin
         m_pulse_pin := pulse_pin
         m_max_rpm := max_rpm
         m_hold_position := hold_position
         m_steps_per_revolution := steps_per_revolution
         m_steps_from_home := uninitialised
         m_is_home_position_set := false },
       [Event.pinMode enable_pin, Event.pinMode direction_pin, Event.pinMode pulse_pin,
        Event.digitalWrite enable_pin (if hold_position then Level.LOW else Level.HIGH)]) := by
  cases hold_position <;> rfl

/-- C17: `set_current_position_as_home` stores `steps_from_home = 0` and
`home_is_set = true`, produces an empty trace (no pin write, no wait), leaves
pins, `steps_per_revolution`, `max_rpm` and `hold_position` as they were, and
calling it twice gives the state of calling it once. -/
theorem set_current_position_as_home_effect (m : StepperMotor) :
    m.call Call.set_current_position_as_home = some (m.set_current_position_as_home, []) ∧
    m.set_current_position_as_home.m_steps_from_home = 0 ∧
    m.set_current_position_as_home.m_is_home_position_set = true ∧
    m.set_current_position_as_home.configuration = m.configuration ∧
    m.set_current_position_as_home.set_current_position_as_home =
      m.set_current_position_as_home ∧
    m.run [Call.set_current_position_as_home, Call.set_current_position_as_home] =
      m.run [Call.set_current_position_as_home] :=
  ⟨rfl, rfl, rfl, rfl, rfl, rfl⟩

/-- C18: with home set, an offset `p` in `[0, spr)` (so `spr ≥ 1`),
`1 ≤ rpm ≤ max_rpm` and every step count `n`, `step(n, clockwise, rpm)` returns
with `steps_from_home` moved by one position, to `(p + 1) % spr` clockwise and
`(p + spr - 1) % spr` counter-clockwise, nothing else in the object changing;
for `n ≤ 0` the trace holds the direction and enable writes only, no pulse. -/
theorem step_moves_offset_by_one (m : StepperMotor) (n : Int) (turn_clockwise : Bool)
    (rpm : Int) (hhome : m.m_is_home_position_set = true)
    (hp0 : 0 ≤ m.m_steps_from_home) (hp1 : m.m_steps_from_home < m.m_steps_per_revolution)
    (hrpm : 1 ≤ rpm) (hmax : rpm ≤ m.m_max_rpm) :
    ∃ s tr, m.step n turn_clockwise rpm = some (s, tr) ∧
      s = { m with m_steps_from_home :=
              if turn_clockwise then (m.m_steps_from_home + 1) % m.m_steps_per_revolution
              else (m.m_steps_from_home + m.m_steps_per_revolution - 1)
                    % m.m_steps_per_revolution } ∧
      (n ≤ 0 →
        tr = [Event.digitalWrite m.m_direction_pin
                (if turn_clockwise then Level.HIGH else Level.LOW),
              Event.digitalWrite m.m_enable_pin Level.LOW] ++
             (if m.m_hold_position then []
              else [Event.digitalWrite m.m_enable_pin Level.HIGH])) := by
  refine ⟨_, _, step_eq_of_valid m n turn_clockwise rpm hmax (by omega) (by omega),
    update_position_modular m turn_clockwise hhome hp0 hp1, ?_⟩
  intro hn
  have hz : n.toNat = 0 := by omega
  rw [hz]
  simp [pulse_loop]

/-- C18 at offset 199 of a 200-step revolution: 50 or 5 clockwise steps store
0, 5 counter-clockwise steps store 198, and so do 0 or -3 steps, the latter
without any wait. -/
theorem step_moves_offset_by_one_witness :
    (∃ s tr, (homed 200 199).step 50 true 60 = some (s, tr) ∧
      s = { homed 200 199 with m_steps_from_home :=
              if true then ((homed 200 199).m_steps_from_home + 1)
                    % (homed 200 199).m_steps_per_revolution
              else ((homed 200 199).m_steps_from_home
                      + (homed 200 199).m_steps_per_revolution - 1)
                    % (homed 200 199).m_steps_per_revolution } ∧
      ((50 : Int) ≤ 0 →
        tr = [Event.digitalWrite (homed 200 199).m_direction_pin
                (if true then Level.HIGH else Level.LOW),
              Event.digitalWrite (homed 200 199).m_enable_pin Level.LOW] ++
             (if (homed 200 199).m_hold_position then []
              else [Event.digitalWrite (homed 200 199).m_enable_pin Level.HIGH]))) ∧
    ((homed 200 199).step 5 true 60).map (fun r => r.1.m_steps_from_home) = some 0 ∧
    ((homed 200 199).step 5 false 60).map (fun r => r.1.m_steps_from_home) = some 198 ∧
    ((homed 200 199).step 0 false 60).map (fun r => r.1.m_steps_from_home) = some 198 ∧
    ((homed 200 199).step (-3) false 60).map (fun r => (r.1.m_steps_from_home, wait_count r.2))
      = some (198, 0) :=
  ⟨step_moves_offset_by_one (homed 200 199) 50 true 60 (by decide) (by decide) (by decide)
     (by decide) (by decide), by decide, by decide, by decide, by decide⟩

end StepperMotor
